import Mathlib

/-!
# Verification of the demoscene-world demo lifecycle runner

A shallow embedding of the repository's core: the `DemoRunner` class
(runner.ts: lifecycle state machine, context broker, pause-adjusted clock)
and the demo registry (src/core/registry.ts).

Modelling conventions:
* `performance.now()` timestamps are integers (`Int`), passed explicitly to
  each operation that reads the clock; within one synchronous operation all
  reads of the clock observe the same instant.
* JavaScript `null` is `Option.none`; the TypeScript non-null assertion `!`
  performs no runtime check, so a context-creation failure simply stores and
  returns `none`, exactly as the source would store and return `null`.
* The host's `requestAnimationFrame` returns fresh positive handles; we model
  the host's allocator as a counter `rafCounter` (starting at 1) carried in
  the runner state.  `cancelAnimationFrame` and the pixel-buffer clears
  (`clearRect`, `gl.clear`, `gl.viewport`) have no effect on runner state and
  are not modelled beyond the state fields the source mutates.
* Calls into the polymorphic demo unit (`init`, `render`, `destroy`) are
  recorded as events in an emitted event list, since the runner never looks
  at their results.
* The `async runDemo` method is split at its single suspension point
  (`await demo.init(...)`): `runDemoStart` is everything before the `await`,
  `runDemoFinish` is the continuation after it.  `runDemo` composes the two,
  which is the behaviour when `init` resolves immediately.
-/

namespace DemoWorld

/-- `type Era = 'oldschool' | 'golden' | 'modern'` (types.ts). -/
inductive Era where
  | oldschool
  | golden
  | modern
deriving DecidableEq, Repr

/-- `type RendererType = 'canvas2d' | 'webgl2'` (types.ts). -/
inductive RendererType where
  | canvas2d
  | webgl2
deriving DecidableEq, Repr

/-- The part of `DemoMetadata` the runner and registry inspect:
`id`, `era` and `renderer` (types.ts).  The remaining metadata fields
(name, year, description, author, tags) are never read by the code under
verification and are omitted. -/
structure Demo where
  id : String
  era : Era
  renderer : RendererType
deriving DecidableEq, Repr

/-- The native `<canvas>` surface: pixel dimensions plus a generation
counter `gen` identifying which physical DOM element this is.
`recreateCanvas` makes a brand-new element, so it bumps `gen`. -/
structure Canvas where
  width : Nat
  height : Nat
  gen : Nat
deriving DecidableEq, Repr

/-- A rendering-context handle (`CanvasRenderingContext2D` or
`WebGL2RenderingContext`): its kind and the generation of the canvas it was
derived from (a handle is tied to one physical surface). -/
structure Handle where
  kind : RendererType
  gen : Nat
deriving DecidableEq, Repr

/-- The host platform: which context kinds `canvas.getContext(...)` can
actually produce.  `canvas.getContext` returns `null` (here `none`) for an
unsupported kind. -/
structure Platform where
  avail : RendererType → Bool

/-- `canvas.getContext(kindString, ...)`: a fresh handle of the requested
kind derived from the given canvas, or `none` when the platform cannot
provide that kind. -/
def createNativeContext (p : Platform) (k : RendererType) (c : Canvas) :
    Option Handle :=
  if p.avail k then some ⟨k, c.gen⟩ else none

/-- Events the runner emits into the demo unit it hosts. -/
inductive Ev where
  | initEv (d : Demo) (ctx : Option Handle)
  | renderEv (d : Demo) (time : Int) (delta : Int)
  | destroyEv (d : Demo)
deriving DecidableEq, Repr

/-- The mutable fields of `class DemoRunner` (runner.ts lines 3–14),
plus the host-side `rafCounter` allocator for animation-frame handles. -/
structure RunnerState where
  canvas : Canvas
  ctx2d : Option Handle
  gl : Option Handle
  currentRendererType : Option RendererType
  currentDemo : Option Demo
  animationId : Nat
  rafCounter : Nat
  lastTime : Int
  isPaused : Bool
  pausedTime : Int
  accumulatedPauseTime : Int
deriving DecidableEq, Repr

/-- The runner right after `new DemoRunner(canvas)`: all fields at their
declared initialisers (contexts `null`, no demo, `animationId = 0`,
clocks zero, not paused). -/
def mkRunner (c : Canvas) : RunnerState :=
  { canvas := c
    ctx2d := none
    gl := none
    currentRendererType := none
    currentDemo := none
    animationId := 0
    rafCounter := 1
    lastTime := 0
    isPaused := false
    pausedTime := 0
    accumulatedPauseTime := 0 }

/-- `private recreateCanvas()` (runner.ts 73–90): replace the DOM element by
a fresh one with the same pixel width/height (and id/css), null out both
stored contexts.  The new element is a new generation of the surface. -/
def recreateCanvas (s : RunnerState) : RunnerState :=
  { s with
    canvas := { s.canvas with gen := s.canvas.gen + 1 }
    ctx2d := none
    gl := none }

/-- `private getContext(type)` (runner.ts 92–114): recreate the canvas iff a
different renderer type was in use, record the type, then return the cached
context of that kind, creating it first when the cache is `null`.  The
source's non-null assertions do not check anything at runtime, so a failed
creation stores and returns `none`. -/
def getContext (p : Platform) (s : RunnerState) (type : RendererType) :
    RunnerState × Option Handle :=
  let s1 :=
    if s.currentRendererType ≠ none ∧ s.currentRendererType ≠ some type then
      recreateCanvas s
    else s
  let s2 := { s1 with currentRendererType := some type }
  match type with
  | RendererType.canvas2d =>
    match s2.ctx2d with
    | some h => (s2, some h)
    | none =>
      let h := createNativeContext p RendererType.canvas2d s2.canvas
      ({ s2 with ctx2d := h }, h)
  | RendererType.webgl2 =>
    match s2.gl with
    | some h => (s2, some h)
    | none =>
      let h := createNativeContext p RendererType.webgl2 s2.canvas
      ({ s2 with gl := h }, h)

/-- `stop()` (runner.ts 159–177): cancel the scheduled frame when one is
scheduled, call `destroy()` on the current demo when one is active and clear
the reference.  The trailing buffer clears touch only pixels, not runner
state. -/
def stop (s : RunnerState) : RunnerState × List Ev :=
  let s1 := if s.animationId ≠ 0 then { s with animationId := 0 } else s
  match s1.currentDemo with
  | some d => ({ s1 with currentDemo := none }, [Ev.destroyEv d])
  | none => (s1, [])

/-- `pause()` (runner.ts 179–184): only from unpaused; records the pause
instant. -/
def pause (s : RunnerState) (now : Int) : RunnerState :=
  if s.isPaused then s
  else { s with isPaused := true, pausedTime := now }

/-- `resume()` (runner.ts 186–192): only from paused; adds the completed
paused interval to the accumulator and re-bases `lastTime` at the resume
instant. -/
def resume (s : RunnerState) (now : Int) : RunnerState :=
  if s.isPaused then
    { s with
      accumulatedPauseTime := s.accumulatedPauseTime + (now - s.pausedTime)
      isPaused := false
      lastTime := now }
  else s

/-- `togglePause()` (runner.ts 194–200). -/
def togglePause (s : RunnerState) (now : Int) : RunnerState :=
  if s.isPaused then resume s now else pause s now

/-- `get paused()` (runner.ts 202–204): the read-only paused observation. -/
def paused (s : RunnerState) : Bool :=
  s.isPaused

/-- `private loop` (runner.ts 135–157), one tick at wall-clock `now`:
return immediately when no demo is active; otherwise reschedule first
(`animationId = requestAnimationFrame(loop)`), then return when paused,
otherwise advance `lastTime` and render with
`deltaTime = now − lastTime` and `time = now − accumulatedPauseTime`. -/
def loop (s : RunnerState) (now : Int) : RunnerState × List Ev :=
  match s.currentDemo with
  | none => (s, [])
  | some d =>
    let s1 := { s with animationId := s.rafCounter, rafCounter := s.rafCounter + 1 }
    if s1.isPaused then (s1, [])
    else
      let deltaTime := now - s1.lastTime
      let s2 := { s1 with lastTime := now }
      let time := now - s2.accumulatedPauseTime
      (s2, [Ev.renderEv d time deltaTime])

/-- `async runDemo(demo)` up to its `await demo.init(...)` (runner.ts
116–128): stop the current demo, install the new one, reset the pause
accounting, acquire a context of the demo's declared renderer kind, and
issue the `init` call (whose resolution is `runDemoFinish`). -/
def runDemoStart (p : Platform) (s : RunnerState) (d : Demo) :
    RunnerState × List Ev :=
  let s1 := (stop s).1
  let evs := (stop s).2
  let s2 := { s1 with
    currentDemo := some d
    accumulatedPauseTime := 0
    isPaused := false }
  let s3 := (getContext p s2 d.renderer).1
  let ctx := (getContext p s2 d.renderer).2
  (s3, evs ++ [Ev.initEv d ctx])

/-- The continuation of `runDemo` after `await demo.init(...)` resolves
(runner.ts 130–132): `lastTime = performance.now(); this.loop()`.  Both
clock reads happen at the same instant `now`. -/
def runDemoFinish (s : RunnerState) (now : Int) : RunnerState × List Ev :=
  loop { s with lastTime := now } now

/-- `runDemo` when `init` resolves immediately (the synchronous path):
`runDemoStart` followed by `runDemoFinish` at time `now`. -/
def runDemo (p : Platform) (s : RunnerState) (d : Demo) (now : Int) :
    RunnerState × List Ev :=
  let s1 := (runDemoStart p s d).1
  let evs := (runDemoStart p s d).2
  let s2 := (runDemoFinish s1 now).1
  let evs2 := (runDemoFinish s1 now).2
  (s2, evs ++ evs2)

/-- The runner's public operations (and the host-driven tick), as trace
elements; each carries the wall-clock instant at which it runs. -/
inductive Op where
  | opRun (d : Demo)
  | opTick
  | opPause
  | opResume
  | opStop
  | opToggle
deriving DecidableEq, Repr

/-- One trace element applied to a runner state. -/
def stepOp (p : Platform) (s : RunnerState) : Op × Int → RunnerState × List Ev
  | (Op.opRun d, t) => runDemo p s d t
  | (Op.opTick, t) => loop s t
  | (Op.opPause, t) => (pause s t, [])
  | (Op.opResume, t) => (resume s t, [])
  | (Op.opStop, _) => stop s
  | (Op.opToggle, t) => (togglePause s t, [])

/-- Run a whole trace of operations, yielding the final runner state. -/
def runTrace (p : Platform) (s : RunnerState) : List (Op × Int) → RunnerState
  | [] => s
  | e :: tr => runTrace p (stepOp p s e).1 tr

/-- The three pause-accounting fields of a runner state. -/
structure PauseAcct where
  accum : Int
  pausedFlag : Bool
  start : Int
deriving DecidableEq, Repr

/-- Project the pause-accounting fields out of a runner state. -/
def pauseProj (s : RunnerState) : PauseAcct :=
  ⟨s.accumulatedPauseTime, s.isPaused, s.pausedTime⟩

/-- Specification-side accumulator, following the spec's words: the sum of
the completed paused intervals (each `resume` instant minus the matching
`pause` instant), reset to zero by an activation, with repeated `pause` or
`resume` contributing nothing. -/
def specStep (a : PauseAcct) : Op × Int → PauseAcct
  | (Op.opRun _, _) => ⟨0, false, a.start⟩
  | (Op.opTick, _) => a
  | (Op.opStop, _) => a
  | (Op.opPause, t) => if a.pausedFlag then a else ⟨a.accum, true, t⟩
  | (Op.opResume, t) =>
    if a.pausedFlag then ⟨a.accum + (t - a.start), false, a.start⟩ else a
  | (Op.opToggle, t) =>
    if a.pausedFlag then ⟨a.accum + (t - a.start), false, a.start⟩
    else ⟨a.accum, true, t⟩

/-- Specification-side sum of completed paused intervals over a trace that
starts at an activation (accumulator zero, unpaused). -/
def specPausedSum (tr : List (Op × Int)) : Int :=
  (tr.foldl specStep ⟨0, false, 0⟩).accum

/-- Timestamps of a trace are non-decreasing and bounded below by `b`. -/
def chainFrom (b : Int) : List (Op × Int) → Bool
  | [] => true
  | (_, t) :: tr => decide (b ≤ t) && chainFrom t tr

/-- The last timestamp of a trace (or the lower bound for an empty one). -/
def lastStamp (b : Int) : List (Op × Int) → Int
  | [] => b
  | (_, t) :: tr => lastStamp t tr

/-- Two accumulator states that agree on the accumulator and the flag (and
on the pause start whenever the flag is set). -/
def acctAgree (a b : PauseAcct) : Prop :=
  a.accum = b.accum ∧ a.pausedFlag = b.pausedFlag ∧
    (a.pausedFlag = true → a.start = b.start)

/-- The cached context slot for a renderer kind: the `ctx2d` field for
`canvas2d`, the `gl` field for `webgl2` (runner.ts 6–7). -/
def ctxSlot (s : RunnerState) : RendererType → Option Handle
  | RendererType.canvas2d => s.ctx2d
  | RendererType.webgl2 => s.gl

/-- `DemoRegistry` (registry.ts 3–7): one ordered list per era. -/
structure DemoRegistry where
  oldschool : List Demo
  golden : List Demo
  modern : List Demo
deriving DecidableEq, Repr

/-- Indexing `demoRegistry[era]` (registry.ts 17). -/
def eraListOf (r : DemoRegistry) : Era → List Demo
  | Era.oldschool => r.oldschool
  | Era.golden => r.golden
  | Era.modern => r.modern

/-- `registerDemo` (registry.ts 16–18): push onto the list for the demo's
era. -/
def registerDemo (r : DemoRegistry) (d : Demo) : DemoRegistry :=
  match d.era with
  | Era.oldschool => { r with oldschool := r.oldschool ++ [d] }
  | Era.golden => { r with golden := r.golden ++ [d] }
  | Era.modern => { r with modern := r.modern ++ [d] }

/-- `getDemosByEra` (registry.ts 20–22). -/
def getDemosByEra (r : DemoRegistry) (e : Era) : List Demo :=
  eraListOf r e

/-- `getDemoById` (registry.ts 24–30): scan `Object.values(demoRegistry)`
in declaration order (oldschool, golden, modern), returning the first demo
whose `metadata.id` matches, else `undefined`. -/
def getDemoById (r : DemoRegistry) (i : String) : Option Demo :=
  match r.oldschool.find? (fun d => d.id == i) with
  | some d => some d
  | none =>
    match r.golden.find? (fun d => d.id == i) with
    | some d => some d
    | none => r.modern.find? (fun d => d.id == i)

/-- `getAllDemos` (registry.ts 32–38): concatenation in era order. -/
def getAllDemos (r : DemoRegistry) : List Demo :=
  r.oldschool ++ r.golden ++ r.modern

/-- A platform that can produce both context kinds. -/
def pAll : Platform := ⟨fun _ => true⟩

/-- A platform on which `getContext('webgl2', ...)` returns `null`. -/
def pNoGl : Platform :=
  ⟨fun k => match k with
    | RendererType.canvas2d => true
    | RendererType.webgl2 => false⟩

/-- A concrete 640×480 surface, generation 0. -/
def canvas0 : Canvas := ⟨640, 480, 0⟩

/-- A concrete canvas2d demo unit. -/
def demoA : Demo := ⟨"plasma", Era.oldschool, RendererType.canvas2d⟩

/-- A second concrete canvas2d demo unit. -/
def demoB : Demo := ⟨"tunnel", Era.golden, RendererType.canvas2d⟩

/-- A concrete webgl2 demo unit. -/
def demoG : Demo := ⟨"lenia", Era.modern, RendererType.webgl2⟩

/-- Concrete pause/resume trace used to instantiate trace theorems. -/
def trPR : List (Op × Int) := [(Op.opPause, 10), (Op.opResume, 30)]

/-- Concrete activate/pause/resume trace used to instantiate trace
theorems. -/
def trAPR : List (Op × Int) :=
  [(Op.opRun demoA, 0), (Op.opPause, 10), (Op.opResume, 30)]

/-- A concrete paused runner hosting `demoA`. -/
def sPausedA : RunnerState :=
  { mkRunner canvas0 with
    currentDemo := some demoA
    isPaused := true
    pausedTime := 10
    lastTime := 5 }

/-- A concrete runner holding a canvas2d context. -/
def sCtx2d : RunnerState :=
  { mkRunner canvas0 with
    currentRendererType := some RendererType.canvas2d
    ctx2d := some ⟨RendererType.canvas2d, 0⟩ }

section ProjectionLemmas

@[simp] lemma recreateCanvas_isPaused (s : RunnerState) :
    (recreateCanvas s).isPaused = s.isPaused := rfl

@[simp] lemma recreateCanvas_accum (s : RunnerState) :
    (recreateCanvas s).accumulatedPauseTime = s.accumulatedPauseTime := rfl

@[simp] lemma recreateCanvas_pausedTime (s : RunnerState) :
    (recreateCanvas s).pausedTime = s.pausedTime := rfl

@[simp] lemma recreateCanvas_lastTime (s : RunnerState) :
    (recreateCanvas s).lastTime = s.lastTime := rfl

@[simp] lemma recreateCanvas_currentDemo (s : RunnerState) :
    (recreateCanvas s).currentDemo = s.currentDemo := rfl

lemma getContext_fst_pause_fields (p : Platform) (s : RunnerState)
    (type : RendererType) :
    ((getContext p s type).1.isPaused = s.isPaused ∧
     (getContext p s type).1.accumulatedPauseTime = s.accumulatedPauseTime ∧
     (getContext p s type).1.pausedTime = s.pausedTime) ∧
    ((getContext p s type).1.lastTime = s.lastTime ∧
     (getContext p s type).1.currentDemo = s.currentDemo ∧
     (getContext p s type).1.animationId = s.animationId ∧
     (getContext p s type).1.rafCounter = s.rafCounter) := by
  unfold getContext
  cases type <;> dsimp only <;> split <;> split <;> simp [recreateCanvas]

@[simp] lemma getContext_isPaused (p : Platform) (s : RunnerState)
    (type : RendererType) :
    (getContext p s type).1.isPaused = s.isPaused :=
  (getContext_fst_pause_fields p s type).1.1

@[simp] lemma getContext_accum (p : Platform) (s : RunnerState)
    (type : RendererType) :
    (getContext p s type).1.accumulatedPauseTime = s.accumulatedPauseTime :=
  (getContext_fst_pause_fields p s type).1.2.1

@[simp] lemma getContext_pausedTime (p : Platform) (s : RunnerState)
    (type : RendererType) :
    (getContext p s type).1.pausedTime = s.pausedTime :=
  (getContext_fst_pause_fields p s type).1.2.2

@[simp] lemma getContext_lastTime (p : Platform) (s : RunnerState)
    (type : RendererType) :
    (getContext p s type).1.lastTime = s.lastTime :=
  (getContext_fst_pause_fields p s type).2.1

@[simp] lemma getContext_currentDemo (p : Platform) (s : RunnerState)
    (type : RendererType) :
    (getContext p s type).1.currentDemo = s.currentDemo :=
  (getContext_fst_pause_fields p s type).2.2.1

lemma stop_fst_fields (s : RunnerState) :
    ((stop s).1.isPaused = s.isPaused ∧
     (stop s).1.accumulatedPauseTime = s.accumulatedPauseTime ∧
     (stop s).1.pausedTime = s.pausedTime) ∧
    ((stop s).1.lastTime = s.lastTime ∧
     (stop s).1.currentDemo = none ∧
     (stop s).1.animationId = 0) := by
  unfold stop
  rcases hd : s.currentDemo with _ | d <;> split <;> simp_all

@[simp] lemma stop_isPaused (s : RunnerState) :
    (stop s).1.isPaused = s.isPaused := (stop_fst_fields s).1.1

@[simp] lemma stop_accum (s : RunnerState) :
    (stop s).1.accumulatedPauseTime = s.accumulatedPauseTime :=
  (stop_fst_fields s).1.2.1

@[simp] lemma stop_pausedTime (s : RunnerState) :
    (stop s).1.pausedTime = s.pausedTime := (stop_fst_fields s).1.2.2

@[simp] lemma stop_lastTime (s : RunnerState) :
    (stop s).1.lastTime = s.lastTime := (stop_fst_fields s).2.1

@[simp] lemma stop_currentDemo (s : RunnerState) :
    (stop s).1.currentDemo = none := (stop_fst_fields s).2.2.1

@[simp] lemma stop_animationId (s : RunnerState) :
    (stop s).1.animationId = 0 := (stop_fst_fields s).2.2.2

end ProjectionLemmas

lemma loop_none (s : RunnerState) (now : Int) (h : s.currentDemo = none) :
    loop s now = (s, []) := by
  unfold loop
  rw [h]

lemma loop_paused (s : RunnerState) (now : Int) (d : Demo)
    (hd : s.currentDemo = some d) (hp : s.isPaused = true) :
    loop s now =
      ({ s with animationId := s.rafCounter, rafCounter := s.rafCounter + 1 },
       []) := by
  unfold loop
  rw [hd]
  simp [hp]

lemma loop_render (s : RunnerState) (now : Int) (d : Demo)
    (hd : s.currentDemo = some d) (hp : s.isPaused = false) :
    loop s now =
      ({ s with
          animationId := s.rafCounter
          rafCounter := s.rafCounter + 1
          lastTime := now },
       [Ev.renderEv d (now - s.accumulatedPauseTime) (now - s.lastTime)]) := by
  unfold loop
  rw [hd]
  simp [hp]

lemma loop_fst_pause_fields (s : RunnerState) (now : Int) :
    (loop s now).1.isPaused = s.isPaused ∧
    (loop s now).1.accumulatedPauseTime = s.accumulatedPauseTime ∧
    (loop s now).1.pausedTime = s.pausedTime ∧
    (loop s now).1.currentDemo = s.currentDemo := by
  rcases hd : s.currentDemo with _ | d
  · simp [loop_none s now hd, hd]
  · rcases hp : s.isPaused with _ | _
    · simp [loop_render s now d hd hp, hd, hp]
    · simp [loop_paused s now d hd hp, hd, hp]

lemma runDemoStart_fst_fields (p : Platform) (s : RunnerState) (d : Demo) :
    (runDemoStart p s d).1.currentDemo = some d ∧
    (runDemoStart p s d).1.isPaused = false ∧
    (runDemoStart p s d).1.accumulatedPauseTime = 0 ∧
    (runDemoStart p s d).1.pausedTime = s.pausedTime ∧
    (runDemoStart p s d).1.lastTime = s.lastTime := by
  unfold runDemoStart
  simp

lemma runDemo_eq (p : Platform) (s : RunnerState) (d : Demo) (now : Int) :
    runDemo p s d now =
      ((loop { (runDemoStart p s d).1 with lastTime := now } now).1,
       (runDemoStart p s d).2 ++
         (loop { (runDemoStart p s d).1 with lastTime := now } now).2) := rfl

lemma runDemo_fst_fields (p : Platform) (s : RunnerState) (d : Demo)
    (now : Int) :
    (runDemo p s d now).1.currentDemo = some d ∧
    (runDemo p s d now).1.isPaused = false ∧
    (runDemo p s d now).1.accumulatedPauseTime = 0 ∧
    (runDemo p s d now).1.pausedTime = s.pausedTime ∧
    (runDemo p s d now).1.lastTime = now := by
  obtain ⟨h1, h2, h3, h4, h5⟩ := runDemoStart_fst_fields p s d
  have hd : ({ (runDemoStart p s d).1 with lastTime := now }
      : RunnerState).currentDemo = some d := h1
  have hp : ({ (runDemoStart p s d).1 with lastTime := now }
      : RunnerState).isPaused = false := h2
  rw [runDemo_eq, loop_render _ now d hd hp]
  simp [h1, h2, h3, h4]

lemma pause_fields (s : RunnerState) (t : Int) :
    (pause s t).currentDemo = s.currentDemo ∧
    (pause s t).lastTime = s.lastTime ∧
    (pause s t).accumulatedPauseTime = s.accumulatedPauseTime ∧
    (pause s t).isPaused = true := by
  unfold pause
  rcases hp : s.isPaused <;> simp [hp]

/-- The pause-accounting fields of every runner operation evolve exactly as
the specification-side accumulator prescribes. -/
lemma pauseProj_stepOp (p : Platform) (s : RunnerState) (e : Op × Int) :
    pauseProj (stepOp p s e).1 = specStep (pauseProj s) e := by
  obtain ⟨op, t⟩ := e
  cases op with
  | opRun d =>
    obtain ⟨_, h2, h3, h4, _⟩ := runDemo_fst_fields p s d t
    simp [stepOp, specStep, pauseProj, h2, h3, h4]
  | opTick =>
    obtain ⟨h1, h2, h3, _⟩ := loop_fst_pause_fields s t
    simp [stepOp, specStep, pauseProj, h1, h2, h3]
  | opPause =>
    unfold stepOp pause
    rcases hp : s.isPaused <;> simp [specStep, pauseProj, hp]
  | opResume =>
    unfold stepOp resume
    rcases hp : s.isPaused <;> simp [specStep, pauseProj, hp]
  | opStop =>
    simp [stepOp, specStep, pauseProj]
  | opToggle =>
    unfold stepOp togglePause pause resume
    rcases hp : s.isPaused <;> simp [specStep, pauseProj, hp]

lemma pauseProj_runTrace (p : Platform) (s : RunnerState)
    (tr : List (Op × Int)) :
    pauseProj (runTrace p s tr) = tr.foldl specStep (pauseProj s) := by
  induction tr generalizing s with
  | nil => rfl
  | cons e tr ih =>
    rw [runTrace, List.foldl_cons, ← pauseProj_stepOp p s e]
    exact ih (stepOp p s e).1

lemma specStep_agree (a b : PauseAcct) (e : Op × Int) (h : acctAgree a b) :
    acctAgree (specStep a e) (specStep b e) := by
  obtain ⟨op, t⟩ := e
  obtain ⟨h1, h2, h3⟩ := h
  cases op with
  | opRun d => exact ⟨rfl, rfl, fun hh => by cases hh⟩
  | opTick => exact ⟨h1, h2, h3⟩
  | opStop => exact ⟨h1, h2, h3⟩
  | opPause =>
    rcases hp : a.pausedFlag with _ | _
    · have hb : b.pausedFlag = false := by rw [← h2]; exact hp
      simp only [specStep, hp, hb, Bool.false_eq_true, if_false]
      exact ⟨h1, rfl, fun _ => rfl⟩
    · have hb : b.pausedFlag = true := by rw [← h2]; exact hp
      simp only [specStep, hp, hb, if_true]
      exact ⟨h1, h2, h3⟩
  | opResume =>
    rcases hp : a.pausedFlag with _ | _
    · have hb : b.pausedFlag = false := by rw [← h2]; exact hp
      simp only [specStep, hp, hb, Bool.false_eq_true, if_false]
      exact ⟨h1, h2, h3⟩
    · have hb : b.pausedFlag = true := by rw [← h2]; exact hp
      simp only [specStep, hp, hb, if_true]
      exact ⟨by rw [h1, h3 hp], rfl, fun hh => by cases hh⟩
  | opToggle =>
    rcases hp : a.pausedFlag with _ | _
    · have hb : b.pausedFlag = false := by rw [← h2]; exact hp
      simp only [specStep, hp, hb, Bool.false_eq_true, if_false]
      exact ⟨h1, rfl, fun _ => rfl⟩
    · have hb : b.pausedFlag = true := by rw [← h2]; exact hp
      simp only [specStep, hp, hb, if_true]
      exact ⟨by rw [h1, h3 hp], rfl, fun hh => by cases hh⟩

lemma foldl_specStep_agree (a b : PauseAcct) (tr : List (Op × Int))
    (h : acctAgree a b) :
    acctAgree (tr.foldl specStep a) (tr.foldl specStep b) := by
  induction tr generalizing a b with
  | nil => exact h
  | cons e tr ih => exact ih _ _ (specStep_agree a b e h)

/-- The accumulated sum of completed paused intervals does not depend on the
irrelevant initial pause-start value. -/
lemma foldl_specStep_start_irrel (x : Int) (tr : List (Op × Int)) :
    (tr.foldl specStep ⟨0, false, x⟩).accum = specPausedSum tr := by
  have h := foldl_specStep_agree ⟨0, false, x⟩ ⟨0, false, 0⟩ tr
    ⟨rfl, rfl, by intro h; cases h⟩
  exact h.1

lemma stepOp_lastTime_le (p : Platform) (s : RunnerState) (op : Op)
    (t b : Int) (hs : s.lastTime ≤ b) (hbt : b ≤ t) :
    (stepOp p s (op, t)).1.lastTime ≤ t := by
  have hst : s.lastTime ≤ t := le_trans hs hbt
  cases op with
  | opRun d => exact le_of_eq (runDemo_fst_fields p s d t).2.2.2.2
  | opTick =>
    rcases hd : s.currentDemo with _ | d
    · simpa [stepOp, loop_none s t hd] using hst
    · rcases hp : s.isPaused with _ | _
      · simp [stepOp, loop_render s t d hd hp]
      · simpa [stepOp, loop_paused s t d hd hp] using hst
  | opPause =>
    unfold stepOp pause
    rcases hp : s.isPaused <;> simpa [hp] using hst
  | opResume =>
    unfold stepOp resume
    rcases hp : s.isPaused <;> simp [hp, hst]
  | opStop => simpa [stepOp] using hst
  | opToggle =>
    unfold stepOp togglePause pause resume
    rcases hp : s.isPaused <;> simp [hp, hst]

lemma chainFrom_lastStamp_le (b : Int) (tr : List (Op × Int))
    (h : chainFrom b tr = true) : b ≤ lastStamp b tr := by
  induction tr generalizing b with
  | nil => exact le_refl b
  | cons e tr ih =>
    obtain ⟨op, t⟩ := e
    rw [chainFrom, Bool.and_eq_true, decide_eq_true_eq] at h
    exact le_trans h.1 (ih t h.2)

/-- Along any trace with non-decreasing timestamps, the runner's
`lastTime` never runs ahead of the last timestamp. -/
lemma runTrace_lastTime_le (p : Platform) (s : RunnerState) (b : Int)
    (tr : List (Op × Int)) (h : chainFrom b tr = true)
    (hs : s.lastTime ≤ b) :
    (runTrace p s tr).lastTime ≤ lastStamp b tr := by
  induction tr generalizing s b with
  | nil => exact hs
  | cons e tr ih =>
    obtain ⟨op, t⟩ := e
    rw [chainFrom, Bool.and_eq_true, decide_eq_true_eq] at h
    exact ih (stepOp p s (op, t)).1 t h.2
      (stepOp_lastTime_le p s op t b hs h.1)

lemma stop_idle (s : RunnerState) (h1 : s.animationId = 0)
    (h2 : s.currentDemo = none) : stop s = (s, []) := by
  unfold stop
  simp [h1, h2]

lemma stop_events_active (s : RunnerState) (d : Demo)
    (hd : s.currentDemo = some d) : (stop s).2 = [Ev.destroyEv d] := by
  unfold stop
  split <;> simp [hd]

/-- C6: for every tick invocation with an active unit, the tick reschedules
itself (records a fresh animation-frame handle) before any other work — in
particular even on the paused early return — and when paused it returns
without emitting a render and without touching `lastTime`,
`accumulatedPauseTime` or any other field. -/
theorem claim_C6_tick_reschedules_then_respects_pause (s : RunnerState)
    (now : Int) (d : Demo) (hd : s.currentDemo = some d) :
    ((loop s now).1.animationId = s.rafCounter ∧
     (loop s now).1.rafCounter = s.rafCounter + 1) ∧
    (s.isPaused = true →
      loop s now =
        ({ s with animationId := s.rafCounter, rafCounter := s.rafCounter + 1 },
         [])) := by
  rcases hp : s.isPaused with _ | _
  · rw [loop_render s now d hd hp]
    simp [hp]
  · rw [loop_paused s now d hd hp]
    simp [hp]

/-- Witness for C6 at a concrete paused runner. -/
theorem claim_C6_witness :
    ((loop sPausedA 5).1.animationId = sPausedA.rafCounter ∧
     (loop sPausedA 5).1.rafCounter = sPausedA.rafCounter + 1) ∧
    (sPausedA.isPaused = true →
      loop sPausedA 5 =
        ({ sPausedA with
            animationId := sPausedA.rafCounter
            rafCounter := sPausedA.rafCounter + 1 },
         [])) :=
  claim_C6_tick_reschedules_then_respects_pause sPausedA 5 demoA (by decide)

/-- C7: `pause()` while paused is a no-op (the recorded pause timestamp is
not overwritten and `isPaused` stays true), the following `resume()`
accumulates the single interval measured from the first `pause`, and
`resume()` while unpaused is a no-op. -/
theorem claim_C7_pause_resume_idempotent (s : RunnerState)
    (t1 t2 t3 t : Int) :
    (pause (pause s t1) t2 = pause s t1 ∧ (pause s t1).isPaused = true) ∧
    (s.isPaused = false →
      (resume (pause (pause s t1) t2) t3).accumulatedPauseTime =
        s.accumulatedPauseTime + (t3 - t1)) ∧
    (s.isPaused = false → resume s t = s) := by
  unfold pause resume
  rcases hp : s.isPaused with _ | _ <;> simp [hp]

/-- Witness for C7 at a concrete unpaused runner. -/
theorem claim_C7_witness :
    (pause (pause (mkRunner canvas0) 10) 20 = pause (mkRunner canvas0) 10 ∧
     (pause (mkRunner canvas0) 10).isPaused = true) ∧
    ((mkRunner canvas0).isPaused = false →
      (resume (pause (pause (mkRunner canvas0) 10) 20) 30).accumulatedPauseTime =
        (mkRunner canvas0).accumulatedPauseTime + (30 - 10)) ∧
    ((mkRunner canvas0).isPaused = false →
      resume (mkRunner canvas0) 40 = mkRunner canvas0) :=
  claim_C7_pause_resume_idempotent (mkRunner canvas0) 10 20 30 40

/-- C8: with an active unit, `stop()` emits exactly one `destroy`, leaves
the runner with no active unit and no scheduled tick, and a second `stop()`
changes nothing and emits nothing. -/
theorem claim_C8_stop_twice_safe (s : RunnerState) (d : Demo)
    (hd : s.currentDemo = some d) :
    (stop s).2 = [Ev.destroyEv d] ∧
    (stop s).1.currentDemo = none ∧
    (stop s).1.animationId = 0 ∧
    stop ((stop s).1) = ((stop s).1, []) := by
  exact ⟨stop_events_active s d hd, stop_currentDemo s, stop_animationId s,
    stop_idle ((stop s).1) (stop_animationId s) (stop_currentDemo s)⟩

/-- Witness for C8 at a concrete running state. -/
theorem claim_C8_witness :
    (stop sPausedA).2 = [Ev.destroyEv demoA] ∧
    (stop sPausedA).1.currentDemo = none ∧
    (stop sPausedA).1.animationId = 0 ∧
    stop ((stop sPausedA).1) = ((stop sPausedA).1, []) :=
  claim_C8_stop_twice_safe sPausedA demoA (by decide)

/-- C10: `stop()` leaves the paused flag and the accumulated paused duration
unchanged; after `pause()` then `stop()` the runner has no active unit while
the read-only paused observation still reports true; a fresh activation
resets the flag to false and the accumulator to zero. -/
theorem claim_C10_stop_preserves_pause_fields (p : Platform)
    (s : RunnerState) (d : Demo) (t now : Int) :
    ((stop s).1.isPaused = s.isPaused ∧
     (stop s).1.accumulatedPauseTime = s.accumulatedPauseTime) ∧
    (paused (stop (pause s t)).1 = true ∧
     (stop (pause s t)).1.currentDemo = none) ∧
    ((runDemo p s d now).1.isPaused = false ∧
     (runDemo p s d now).1.accumulatedPauseTime = 0) := by
  refine ⟨⟨stop_isPaused s, stop_accum s⟩, ⟨?_, stop_currentDemo _⟩,
    (runDemo_fst_fields p s d now).2.1,
    (runDemo_fst_fields p s d now).2.2.1⟩
  rw [paused, stop_isPaused]
  exact (pause_fields s t).2.2.2

lemma setRenderer_self (s : RunnerState) (k : RendererType)
    (h : s.currentRendererType = some k) :
    ({ s with currentRendererType := some k } : RunnerState) = s := by
  cases s
  cases h
  rfl

/-- C5: acquiring a context of the kind already in use returns the existing
cached handle with the runner state (in particular the native surface)
untouched; acquiring a different kind rebuilds the native surface exactly
once (generation bumps by one, pixel width and height preserved) and
returns a handle of the newly requested kind. -/
theorem claim_C5_context_reuse_and_rebuild (p : Platform) (s : RunnerState)
    (k k2 : RendererType) (h0 : Handle) :
    (s.currentRendererType = some k → ctxSlot s k = some h0 →
      getContext p s k = (s, some h0)) ∧
    (s.currentRendererType = some k → k2 ≠ k → p.avail k2 = true →
      (getContext p s k2).1.canvas.gen = s.canvas.gen + 1 ∧
      (getContext p s k2).1.canvas.width = s.canvas.width ∧
      (getContext p s k2).1.canvas.height = s.canvas.height ∧
      (getContext p s k2).2 = some ⟨k2, s.canvas.gen + 1⟩) := by
  constructor
  · intro hk hc
    have hself := setRenderer_self s k hk
    unfold getContext
    have hcond : ¬(s.currentRendererType ≠ none ∧
        s.currentRendererType ≠ some k) := by
      intro hcon
      exact hcon.2 hk
    rw [if_neg hcond]
    cases k with
    | canvas2d =>
      simp only [ctxSlot] at hc
      simp [hc]
      rw [← hc]
      exact hself
    | webgl2 =>
      simp only [ctxSlot] at hc
      simp [hc]
      rw [← hc]
      exact hself
  · intro hk hne hav
    have hcond : s.currentRendererType ≠ none ∧
        s.currentRendererType ≠ some k2 := by
      constructor
      · rw [hk]
        exact Option.some_ne_none k
      · rw [hk]
        intro hcon
        exact hne (Option.some.injEq k k2 ▸ hcon).symm
    unfold getContext
    rw [if_pos hcond]
    cases k2 <;> simp [recreateCanvas, createNativeContext, hav]

/-- Witness for C5: reuse of the cached canvas2d handle and a rebuild when
switching to webgl2. -/
theorem claim_C5_witness :
    (sCtx2d.currentRendererType = some RendererType.canvas2d →
      ctxSlot sCtx2d RendererType.canvas2d =
        some ⟨RendererType.canvas2d, 0⟩ →
      getContext pAll sCtx2d RendererType.canvas2d =
        (sCtx2d, some ⟨RendererType.canvas2d, 0⟩)) ∧
    (sCtx2d.currentRendererType = some RendererType.canvas2d →
      RendererType.webgl2 ≠ RendererType.canvas2d →
      pAll.avail RendererType.webgl2 = true →
      (getContext pAll sCtx2d RendererType.webgl2).1.canvas.gen =
        sCtx2d.canvas.gen + 1 ∧
      (getContext pAll sCtx2d RendererType.webgl2).1.canvas.width =
        sCtx2d.canvas.width ∧
      (getContext pAll sCtx2d RendererType.webgl2).1.canvas.height =
        sCtx2d.canvas.height ∧
      (getContext pAll sCtx2d RendererType.webgl2).2 =
        some ⟨RendererType.webgl2, sCtx2d.canvas.gen + 1⟩) :=
  claim_C5_context_reuse_and_rebuild pAll sCtx2d RendererType.canvas2d
    RendererType.webgl2 ⟨RendererType.canvas2d, 0⟩

/-- C9: `registerDemo` appends at the end of the list for the demo's era and
leaves the other era lists alone; `getDemoById` returns the first demo in
oldschool-golden-modern scan order whose identifier matches, and
`undefined` (`none`) when no demo matches. -/
theorem claim_C9_registry_order_and_lookup (r : DemoRegistry) (d : Demo)
    (e : Era) (i : String) :
    (getDemosByEra (registerDemo r d) d.era =
      getDemosByEra r d.era ++ [d]) ∧
    (e ≠ d.era → getDemosByEra (registerDemo r d) e = getDemosByEra r e) ∧
    (getDemoById r i = (getAllDemos r).find? (fun d0 => d0.id == i)) ∧
    ((∀ d0 ∈ getAllDemos r, d0.id ≠ i) → getDemoById r i = none) := by
  have hscan : getDemoById r i =
      (getAllDemos r).find? (fun d0 => d0.id == i) := by
    unfold getDemoById getAllDemos
    rcases h1 : r.oldschool.find? (fun d0 => d0.id == i) with _ | d1 <;>
      rcases h2 : r.golden.find? (fun d0 => d0.id == i) with _ | d2 <;>
        simp [List.find?_append, h1, h2, Option.or]
  refine ⟨?_, ?_, hscan, ?_⟩
  · rcases he : d.era <;>
      simp [registerDemo, getDemosByEra, eraListOf, he]
  · intro hne
    rcases he : d.era <;> rcases e <;>
      simp_all [registerDemo, getDemosByEra, eraListOf]
  · intro habs
    rw [hscan, List.find?_eq_none]
    intro x hx
    simpa using habs x hx

/-- Witness for C9 on a concrete registry. -/
theorem claim_C9_witness :
    (getDemosByEra (registerDemo ⟨[demoA], [demoB], []⟩ demoG) demoG.era =
      getDemosByEra ⟨[demoA], [demoB], []⟩ demoG.era ++ [demoG]) ∧
    (Era.oldschool ≠ demoG.era →
      getDemosByEra (registerDemo ⟨[demoA], [demoB], []⟩ demoG)
          Era.oldschool =
        getDemosByEra ⟨[demoA], [demoB], []⟩ Era.oldschool) ∧
    (getDemoById ⟨[demoA], [demoB], []⟩ "tunnel" =
      (getAllDemos ⟨[demoA], [demoB], []⟩).find?
        (fun d0 => d0.id == "tunnel")) ∧
    ((∀ d0 ∈ getAllDemos ⟨[demoA], [demoB], []⟩, d0.id ≠ "tunnel") →
      getDemoById ⟨[demoA], [demoB], []⟩ "tunnel" = none) :=
  claim_C9_registry_order_and_lookup ⟨[demoA], [demoB], []⟩ demoG
    Era.oldschool "tunnel"

lemma resume_eq_of_paused (s : RunnerState) (r : Int)
    (hp : s.isPaused = true) :
    resume s r =
      { s with
        accumulatedPauseTime := s.accumulatedPauseTime + (r - s.pausedTime)
        isPaused := false
        lastTime := r } := by
  unfold resume
  rw [if_pos hp]

/-- C3: after an activation, for every interleaving of `pause`/`resume`
(and further public operations) and every tick, the logical time handed to
`render` is exactly the tick's wall-clock instant minus the sum of the
completed paused intervals accumulated since that activation. -/
theorem claim_C3_logical_time_excludes_pauses (p : Platform)
    (s0 : RunnerState) (d0 : Demo) (t0 : Int) (tr : List (Op × Int))
    (t : Int) (d : Demo)
    (hd : (runTrace p (runDemo p s0 d0 t0).1 tr).currentDemo = some d)
    (hp : (runTrace p (runDemo p s0 d0 t0).1 tr).isPaused = false) :
    (loop (runTrace p (runDemo p s0 d0 t0).1 tr) t).2 =
      [Ev.renderEv d (t - specPausedSum tr)
        (t - (runTrace p (runDemo p s0 d0 t0).1 tr).lastTime)] := by
  rw [loop_render _ t d hd hp]
  have hproj : pauseProj (runTrace p (runDemo p s0 d0 t0).1 tr) =
      tr.foldl specStep (pauseProj (runDemo p s0 d0 t0).1) :=
    pauseProj_runTrace p (runDemo p s0 d0 t0).1 tr
  have hstart : pauseProj (runDemo p s0 d0 t0).1 =
      ⟨0, false, s0.pausedTime⟩ := by
    obtain ⟨_, h2, h3, h4, _⟩ := runDemo_fst_fields p s0 d0 t0
    simp [pauseProj, h2, h3, h4]
  have haccum : (runTrace p (runDemo p s0 d0 t0).1 tr).accumulatedPauseTime =
      specPausedSum tr := by
    have h := congrArg PauseAcct.accum hproj
    rw [hstart] at h
    rw [show (runTrace p (runDemo p s0 d0 t0).1 tr).accumulatedPauseTime =
      (pauseProj (runTrace p (runDemo p s0 d0 t0).1 tr)).accum from rfl]
    rw [hproj, hstart, foldl_specStep_start_irrel]
  rw [haccum]

/-- Witness for C3: activate, pause at 10, resume at 30, tick at 50 renders
logical time 30 = 50 − 20. -/
theorem claim_C3_witness :
    (loop (runTrace pAll (runDemo pAll (mkRunner canvas0) demoA 0).1 trPR)
        50).2 =
      [Ev.renderEv demoA (50 - specPausedSum trPR)
        (50 -
          (runTrace pAll (runDemo pAll (mkRunner canvas0) demoA 0).1
              trPR).lastTime)] :=
  claim_C3_logical_time_excludes_pauses pAll (mkRunner canvas0) demoA 0
    trPR 50 demoA (by decide) (by decide)

/-- C4: every `deltaTime` handed to `render` along a trace with
non-decreasing wall-clock timestamps is ≥ 0, and the first render after a
`resume()` reports a `deltaTime` measured from the wall-clock instant of
the `resume()` call itself. -/
theorem claim_C4_delta_nonneg_and_resume_rebases (p : Platform) :
    (∀ (s : RunnerState) (b : Int) (tr : List (Op × Int)) (t : Int)
        (d : Demo) (time delta : Int),
        chainFrom b tr = true → s.lastTime ≤ b → lastStamp b tr ≤ t →
        Ev.renderEv d time delta ∈ (loop (runTrace p s tr) t).2 →
        0 ≤ delta) ∧
    (∀ (s : RunnerState) (r t : Int) (d : Demo),
        s.isPaused = true → s.currentDemo = some d →
        (loop (resume s r) t).2 =
          [Ev.renderEv d (t - (resume s r).accumulatedPauseTime)
            (t - r)]) := by
  constructor
  · intro s b tr t d time delta hchain hsb hlast hmem
    have hS : (runTrace p s tr).lastTime ≤ lastStamp b tr :=
      runTrace_lastTime_le p s b tr hchain hsb
    rcases hd : (runTrace p s tr).currentDemo with _ | d0
    · rw [loop_none _ t hd] at hmem
      simp at hmem
    · rcases hpa : (runTrace p s tr).isPaused with _ | _
      · rw [loop_render _ t d0 hd hpa] at hmem
        simp only [List.mem_singleton, Ev.renderEv.injEq] at hmem
        obtain ⟨_, _, hdel⟩ := hmem
        omega
      · rw [loop_paused _ t d0 hd hpa] at hmem
        simp at hmem
  · intro s r t d hp hd
    have he := resume_eq_of_paused s r hp
    have hd2 : (resume s r).currentDemo = some d := by
      rw [he]
      exact hd
    have hp2 : (resume s r).isPaused = false := by
      rw [he]
    have hl : (resume s r).lastTime = r := by
      rw [he]
    rw [loop_render (resume s r) t d hd2 hp2, hl]

/-- Witness for C4: a render with `deltaTime = 20 ≥ 0` after the concrete
activate/pause/resume trace, and the tick after a concrete `resume` at 30
reporting `deltaTime = t − 30`. -/
theorem claim_C4_witness :
    (0 : Int) ≤ 20 ∧
    (loop (resume sPausedA 30) 50).2 =
      [Ev.renderEv demoA (50 - (resume sPausedA 30).accumulatedPauseTime)
        (50 - 30)] :=
  ⟨(claim_C4_delta_nonneg_and_resume_rebases pAll).1 (mkRunner canvas0) 0
      trAPR 50 demoA 30 20 (by decide) (by decide) (by decide) (by decide),
    (claim_C4_delta_nonneg_and_resume_rebases pAll).2 sPausedA 30 50 demoA
      (by decide) (by decide)⟩

/-- C1 (code divergence): `runDemo(A)` suspends at `await A.init`; a
superseding `runDemo(B)` then runs `stop()`, which calls `A.destroy()`
even though `A.init` has not resolved — contradicting the claim's
"`destroy` only if `init` had already resolved".  Moreover, when the
abandoned activation's continuation finally resolves, it calls `loop()`
again, scheduling a second concurrent loop (the `rafCounter` reaches 3:
two loops were started after the supersede). -/
theorem claim_C1_superseded_destroy_divergence :
    (runDemoStart pAll (runDemoStart pAll (mkRunner canvas0) demoA).1
        demoB).2 =
      [Ev.destroyEv demoA,
       Ev.initEv demoB (some ⟨RendererType.canvas2d, 0⟩)] ∧
    (runDemoFinish
        (runDemoFinish
            (runDemoStart pAll (runDemoStart pAll (mkRunner canvas0) demoA).1
                demoB).1
            100).1
        110).2 =
      [Ev.renderEv demoB 110 0] ∧
    (runDemoFinish
        (runDemoFinish
            (runDemoStart pAll (runDemoStart pAll (mkRunner canvas0) demoA).1
                demoB).1
            100).1
        110).1.rafCounter = 3 := by
  decide

/-- C2 (code divergence): on a platform where `getContext('webgl2', ...)`
returns `null`, activating a webgl2 demo still calls the demo's `init`
(with the null handle), installs it as the current demo — the runner does
not stay idle — and even proceeds to render; no failure is signalled
anywhere. -/
theorem claim_C2_unsupported_backend_divergence :
    (runDemoStart pNoGl (mkRunner canvas0) demoG).2 =
      [Ev.initEv demoG none] ∧
    (runDemoStart pNoGl (mkRunner canvas0) demoG).1.currentDemo =
      some demoG ∧
    (runDemoStart pNoGl (mkRunner canvas0) demoG).1.gl = none ∧
    (runDemo pNoGl (mkRunner canvas0) demoG 5).2 =
      [Ev.initEv demoG none, Ev.renderEv demoG 5 0] := by
  decide

end DemoWorld
